import Mathlib

/-!
Verification of the runner orchestration core of the `rvmm` repository
(macos-github-action-vm): a shallow embedding, in Lean 4, of the Go code in
`internal/runner/loop.go`, `internal/runner/github.go`, `internal/runner/ssh.go`
and `internal/setup/setup.go` (the `VMManager` half of that file), together
with proofs of the specification's claims about it.

Conventions of the embedding:
- pure Go functions become Lean functions over the same data;
- effectful functions become Lean functions that return, next to their Go
  result, an explicit list of the externally visible commands they issue
  (process spawns, HTTP requests, file-system removals), so that claims about
  "what is invoked, how often, and in which order" are claims about that list;
- `context.Context` values are modelled by the data the code inspects:
  either the caller's context with its cancelled flag, or a fresh
  background-with-timeout context;
- the concurrent dispatcher loop is modelled as a transition system whose
  steps are the synchronisation events of the Go code (taking a slot id from
  the buffered channel, cloning a VM, running the deferred cleanup, returning
  the slot).
-/

namespace Rvmm

/-! ## Data model: the configuration (internal/config/config.go) -/

/-- Embeds `config.GitHubConfig`. -/
structure GitHubConfig where
  apiToken : String
  registrationEndpoint : String
  runnerURL : String
  runnerName : String
  runnerLabels : List String
deriving Repr, DecidableEq

/-- Embeds `config.VMConfig`. -/
structure VMConfig where
  username : String
  password : String
deriving Repr, DecidableEq

/-- Embeds `config.RegistryConfig`. -/
structure RegistryConfig where
  url : String
  imageName : String
  username : String
  password : String
deriving Repr, DecidableEq

/-- Embeds `config.OptionsConfig` (the fields the runner loop reads). -/
structure OptionsConfig where
  truncateSize : String
  shutdownFlagFile : String
  maxConcurrentRunners : Nat
deriving Repr, DecidableEq

/-- Embeds `config.Config`. -/
structure Config where
  github : GitHubConfig
  vm : VMConfig
  registry : RegistryConfig
  options : OptionsConfig
deriving Repr, DecidableEq

/-! ## String helpers embedding the Go standard library calls used -/

/-- Embeds Go `strings.HasPrefix s p`: `p` is a prefix of `s`.
Go compares byte-wise on UTF-8; on the character lists of valid strings this
coincides with list-prefix comparison. -/
def strStartsWith (s p : String) : Bool :=
  p.data.isPrefixOf s.data

/-! ## VMManager.GetRegistryPath (internal/setup/setup.go, `GetRegistryPath`) -/

/-- Embeds `(*VMManager).GetRegistryPath`:
empty registry URL returns the image name verbatim; an image name that
already starts with `url + "/"` is returned as-is; otherwise the two are
joined with `"/"` (the Go `fmt.Sprintf("%s/%s", url, imageName)`). -/
def getRegistryPath (cfg : Config) : String :=
  if cfg.registry.url = "" then
    cfg.registry.imageName
  else if strStartsWith cfg.registry.imageName (cfg.registry.url ++ "/") then
    cfg.registry.imageName
  else
    cfg.registry.url ++ "/" ++ cfg.registry.imageName

/-- A sample configuration with the given registry URL and image name; the
remaining fields hold the repository's defaults. -/
def regConfig (url imageName : String) : Config :=
  { github := { apiToken := "t", registrationEndpoint := "https://api.github.com/x", runnerURL := "https://github.com/x", runnerName := "runner", runnerLabels := [] }
    vm := { username := "admin", password := "admin" }
    registry := { url := url, imageName := imageName, username := "", password := "" }
    options := { truncateSize := "", shutdownFlagFile := ".shutdown", maxConcurrentRunners := 1 } }

/-! ## The IP shape check (internal/setup/setup.go, `ipRegex`) -/

/-- Splitting a character list at every `'.'` (the separators are dropped,
empty chunks are kept), the combinator underlying the matcher for the Go
regular expression `ipRegex`. -/
def splitDot : List Char → List (List Char)
  | [] => [[]]
  | c :: cs =>
    if c = '.' then
      [] :: splitDot cs
    else
      match splitDot cs with
      | [] => [[c]]
      | p :: ps => (c :: p) :: ps

/-- A nonempty run of ASCII decimal digits (`\d+` in Go RE2, where `\d` is
`[0-9]`). -/
def isDigitRun (p : List Char) : Bool :=
  !p.isEmpty && p.all Char.isDigit

/-- Embeds the Go regular expression `^(\d+\.){3}\d+$` (`ipRegex` in
internal/setup/setup.go): the anchored pattern matches exactly the strings of
the form `d1.d2.d3.d4` with each `di` a nonempty digit run, i.e. the strings
whose split at `'.'` has exactly four chunks, all nonempty digit runs. -/
def ipRegexMatches (s : String) : Bool :=
  let parts := splitDot s.data
  parts.length == 4 && parts.all isDigitRun

/-! ## Claim C3 -/

/-- C3: `GetRegistryPath` returns `image_name` verbatim when `registry_url`
is empty; returns `image_name` as-is when it already starts with
`registry_url + "/"`; otherwise returns `registry_url + "/" + image_name`.
In particular it maps the pair `("ghcr.io/org", "ghcr.io/org/runner:latest")`
to `"ghcr.io/org/runner:latest"` and `("", "runner:latest")` to
`"runner:latest"`. -/
theorem getRegistryPath_resolution (cfg : Config) :
    (cfg.registry.url = "" → getRegistryPath cfg = cfg.registry.imageName) ∧
    (strStartsWith cfg.registry.imageName (cfg.registry.url ++ "/") = true →
      getRegistryPath cfg = cfg.registry.imageName) ∧
    (cfg.registry.url ≠ "" →
      strStartsWith cfg.registry.imageName (cfg.registry.url ++ "/") = false →
      getRegistryPath cfg = cfg.registry.url ++ "/" ++ cfg.registry.imageName) ∧
    getRegistryPath (regConfig "ghcr.io/org" "ghcr.io/org/runner:latest") =
      "ghcr.io/org/runner:latest" ∧
    getRegistryPath (regConfig "" "runner:latest") = "runner:latest" := by
  refine ⟨?_, ?_, ?_, by decide, by decide⟩
  · intro h
    simp [getRegistryPath, h]
  · intro h
    by_cases hu : cfg.registry.url = ""
    · simp [getRegistryPath, hu]
    · simp [getRegistryPath, hu, h]
  · intro hu h
    simp [getRegistryPath, hu, h]

/-- Witness for C3: the three conditional branches, discharged at concrete
configurations. -/
theorem getRegistryPath_resolution_witness :
    getRegistryPath (regConfig "" "img:tag") = "img:tag" ∧
    getRegistryPath (regConfig "ghcr.io/org" "ghcr.io/org/runner:latest") =
      "ghcr.io/org/runner:latest" ∧
    getRegistryPath (regConfig "ghcr.io/org" "runner:latest") =
      "ghcr.io/org" ++ "/" ++ "runner:latest" :=
  ⟨(getRegistryPath_resolution (regConfig "" "img:tag")).1 rfl,
   (getRegistryPath_resolution _).2.1 (by decide),
   (getRegistryPath_resolution (regConfig "ghcr.io/org" "runner:latest")).2.2.1
     (by decide) (by decide)⟩

/-! ## The dispatcher loop as a transition system (internal/runner/loop.go, `Run`)

`Run` creates a buffered channel `slots` holding the slot ids `0..N-1`
(`N = cfg.Options.MaxConcurrentRunners`), and loops: it receives a slot id
from the channel (blocking when the channel is empty) and spawns a worker
goroutine for it; the goroutine runs `runOnce` and, by a `defer`, sends its
slot id back on the channel when it finishes. Within `runOnce` a VM instance
is created by `vm.Clone` (at most once per iteration) and destroyed by the
deferred `vm.Cleanup`, which runs before `runOnce` returns and hence before
the slot is returned.

We abstract a global state by how many slot ids sit in the channel
(`freeSlots`), how many spawned workers currently hold no VM instance
(`idleWorkers`: before their clone, or after their cleanup), and how many
hold one (`vmWorkers`). The live VM instances are exactly the ones held by
workers, so their number is `vmWorkers`. -/

/-- Abstract state of the dispatcher loop: slot ids in the channel, workers
without a VM instance, workers holding a VM instance. -/
structure LoopState where
  freeSlots : Nat
  idleWorkers : Nat
  vmWorkers : Nat
deriving Repr, DecidableEq

/-- One synchronisation event of `Run` / `runOnce`:
`spawn` — the dispatcher receives a slot id from the channel and starts a
worker goroutine (loop.go: `slotID = <-slots` followed by `go func`);
`clone` — a worker creates its VM instance (`vm.Clone`);
`cleanup` — a worker destroys its VM instance (the deferred `vm.Cleanup`);
`finish` — a worker goroutine returns and its deferred send puts the slot id
back into the channel (`defer func() { slots <- slot }`). A worker can only
finish after its deferred cleanup has run, so only idle workers finish. -/
inductive LoopStep : LoopState → LoopState → Prop where
  | spawn (f i v : Nat) : LoopStep ⟨f + 1, i, v⟩ ⟨f, i + 1, v⟩
  | clone (f i v : Nat) : LoopStep ⟨f, i + 1, v⟩ ⟨f, i, v + 1⟩
  | cleanup (f i v : Nat) : LoopStep ⟨f, i, v + 1⟩ ⟨f, i + 1, v⟩
  | finish (f i v : Nat) : LoopStep ⟨f, i + 1, v⟩ ⟨f + 1, i, v⟩

/-- The states the dispatcher loop can reach when started with concurrency
bound `N`: `Run` fills the channel with `N` slot ids before any worker
exists, and every later state arises by one of the four events. -/
inductive LoopReachable (N : Nat) : LoopState → Prop where
  | init : LoopReachable N ⟨N, 0, 0⟩
  | step {s t : LoopState} : LoopReachable N s → LoopStep s t → LoopReachable N t

/-- Slot conservation: the slot ids in the channel plus the workers (each of
which holds exactly one slot id) always number `N`. -/
theorem loopReachable_sum (N : Nat) (s : LoopState) (h : LoopReachable N s) :
    s.freeSlots + s.idleWorkers + s.vmWorkers = N := by
  induction h with
  | init => rfl
  | step _ hstep ih =>
    cases hstep <;> simp_all <;> omega

/-! ## Claim C1 -/

/-- C1: for every concurrency bound `N ≥ 1`, in every state the dispatcher
loop can reach, at most `N` VM instances exist simultaneously: a worker is
spawned only after taking one of the `N` slot ids, creates at most one VM
instance, and its slot id is returned only after it finishes. -/
theorem concurrency_bound (N : Nat) (hN : 1 ≤ N) (s : LoopState)
    (h : LoopReachable N s) : s.vmWorkers ≤ N := by
  have hsum := loopReachable_sum N s h
  omega

/-- Witness for C1: with bound `N = 1`, the state reached by taking the slot,
spawning the worker and cloning the VM holds one instance, within the bound. -/
theorem concurrency_bound_witness :
    (⟨0, 0, 1⟩ : LoopState).vmWorkers ≤ 1 :=
  concurrency_bound 1 (by decide) ⟨0, 0, 1⟩
    (.step (.step .init (.spawn 0 0 0)) (.clone 0 0 0))

/-! ## The worker iteration (internal/runner/loop.go, `runOnce` and the
worker goroutine body in `Run`)

`runOnce` is strictly sequential; we embed it as a function from the
outcomes of its fallible steps to the worker-visible trace of calls it makes,
in order. The `defer vm.Cleanup(ctx, instanceName)` is registered right
after the instance name is derived (before `vm.Clone`), so every return path
from that point on ends with the cleanup call. -/

/-- Outcomes of the fallible steps of one worker iteration. `tokenResult` is
the result of `github.GetRegistrationToken` (which takes no context);
`ipResult` is the result of `vm.WaitForIP` (`none` covers both its timeout
and its cancellation error); `runnerExitErr` records `ssh.RunRunner`
returning an error, which `runOnce` only logs; `ctxCancelled` is what the
worker goroutine's `ctx.Err() != nil` check observes after a failed
`runOnce`. -/
structure RunEnv where
  tokenResult : Option String
  cloneOK : Bool
  startOK : Bool
  ipResult : Option String
  sshOK : Bool
  configureOK : Bool
  runnerExitErr : Bool
  stopOK : Bool
  ctxCancelled : Bool
deriving Repr, DecidableEq

/-- The calls a worker makes, in program order. -/
inductive Ev where
  | tokenFetch
  | cloneCall (name : String)
  | startCall (name : String)
  | waitIPCall (name : String)
  | waitSSHCall (ip : String)
  | configureCall (ip : String) (name : String)
  | runJobCall (ip : String)
  | stopCall (name : String)
  | cleanupCall (name : String)
  | backoffSleep
  | slotReturn (slot : Nat)
deriving Repr, DecidableEq

/-- Embeds loop.go line 170, `fmt.Sprintf("%s_%d", cfg.GitHub.RunnerName,
slotID)`. -/
def instanceName (cfg : Config) (slot : Nat) : String :=
  cfg.github.runnerName ++ "_" ++ toString slot

/-- The calls the body of `runOnce` makes after the deferred cleanup has been
registered (loop.go lines 175–232), and whether the body ends in error:
clone; start; wait for IP; wait for SSH; configure; run the job (an error
here is only logged, execution continues); stop the VM (an error here is
only logged). The first failing step aborts the rest. -/
def runOnceBody (cfg : Config) (slot : Nat) (env : RunEnv) : Bool × List Ev :=
  let name := instanceName cfg slot
  if !env.cloneOK then
    (true, [Ev.tokenFetch, Ev.cloneCall name])
  else if !env.startOK then
    (true, [Ev.tokenFetch, Ev.cloneCall name, Ev.startCall name])
  else
    match env.ipResult with
    | none =>
      (true, [Ev.tokenFetch, Ev.cloneCall name, Ev.startCall name, Ev.waitIPCall name])
    | some ip =>
      if !env.sshOK then
        (true, [Ev.tokenFetch, Ev.cloneCall name, Ev.startCall name,
          Ev.waitIPCall name, Ev.waitSSHCall ip])
      else if !env.configureOK then
        (true, [Ev.tokenFetch, Ev.cloneCall name, Ev.startCall name,
          Ev.waitIPCall name, Ev.waitSSHCall ip, Ev.configureCall ip name])
      else
        (false, [Ev.tokenFetch, Ev.cloneCall name, Ev.startCall name,
          Ev.waitIPCall name, Ev.waitSSHCall ip, Ev.configureCall ip name,
          Ev.runJobCall ip, Ev.stopCall name])

/-- Embeds `runOnce`: returns whether it ended in error, next to the trace of
calls it made. If the token fetch fails, `runOnce` returns before the
cleanup is deferred and no instance name exists. Otherwise the instance name
is derived and `defer vm.Cleanup(ctx, instanceName)` is registered, so every
return path of the body is followed by exactly that cleanup call — the `++
[Ev.cleanupCall name]` renders Go's `defer` running at every exit. -/
def runOnceEvents (cfg : Config) (slot : Nat) (env : RunEnv) : Bool × List Ev :=
  match env.tokenResult with
  | none => (true, [Ev.tokenFetch])
  | some _ =>
    let r := runOnceBody cfg slot env
    (r.1, r.2 ++ [Ev.cleanupCall (instanceName cfg slot)])

/-- Embeds the worker goroutine body in `Run` (loop.go lines 129–156): run
`runOnce`; on error, if the context is not cancelled, sleep 10 seconds; the
deferred send returns the slot id to the pool last. -/
def workerEvents (cfg : Config) (slot : Nat) (env : RunEnv) : List Ev :=
  let r := runOnceEvents cfg slot env
  let evs := if r.1 && !env.ctxCancelled then r.2 ++ [Ev.backoffSleep] else r.2
  evs ++ [Ev.slotReturn slot]

/-- The body trace of `runOnce` contains no cleanup call and no slot return,
for any names whatsoever. -/
theorem runOnceBody_no_cleanup (cfg : Config) (slot : Nat) (env : RunEnv)
    (m : String) (k : Nat) :
    Ev.cleanupCall m ∉ (runOnceBody cfg slot env).2 ∧
    Ev.slotReturn k ∉ (runOnceBody cfg slot env).2 := by
  rcases env with ⟨tr, cOK, sOK, ipr, sshOK, cfOK, rexit, stOK, cc⟩
  simp only [runOnceBody]
  cases cOK <;> cases sOK <;> rcases ipr with _ | ip <;> cases sshOK <;> cases cfOK <;>
    simp

/-- In every iteration whose token fetch succeeded, the `runOnce` trace ends
with the deferred cleanup of the iteration's instance name, which occurs
nowhere else; the slot is never returned inside `runOnce`. -/
theorem runOnceEvents_cleanup_last (cfg : Config) (slot : Nat) (env : RunEnv)
    (tok : String) (h : env.tokenResult = some tok) :
    ∃ pre, (runOnceEvents cfg slot env).2 = pre ++ [Ev.cleanupCall (instanceName cfg slot)] ∧
      Ev.cleanupCall (instanceName cfg slot) ∉ pre ∧
      Ev.slotReturn slot ∉ pre := by
  have hno := runOnceBody_no_cleanup cfg slot env (instanceName cfg slot) slot
  refine ⟨(runOnceBody cfg slot env).2, ?_, hno.1, hno.2⟩
  simp only [runOnceEvents, h]

/-! ## Claim C2 -/

/-- C2: in every worker iteration whose token fetch succeeded — whatever the
outcome of the clone, start, address-wait, readiness-wait, configure and
run-job steps, and whether or not the context was cancelled —
`VMManager.Cleanup` is called exactly once, with that iteration's instance
name, and that call completes before the iteration's slot id is sent back to
the pool (the slot return is the final event of the worker's trace). -/
theorem cleanup_once_before_slot_release (cfg : Config) (slot : Nat)
    (env : RunEnv) (tok : String) (h : env.tokenResult = some tok) :
    ∃ pre mid, workerEvents cfg slot env =
      pre ++ Ev.cleanupCall (instanceName cfg slot) :: (mid ++ [Ev.slotReturn slot]) ∧
      Ev.cleanupCall (instanceName cfg slot) ∉ pre ∧
      Ev.cleanupCall (instanceName cfg slot) ∉ mid ∧
      Ev.slotReturn slot ∉ pre ∧
      Ev.slotReturn slot ∉ mid := by
  obtain ⟨pre, hpre, hc, hs⟩ := runOnceEvents_cleanup_last cfg slot env tok h
  unfold workerEvents
  cases hb : ((runOnceEvents cfg slot env).1 && !env.ctxCancelled)
  · exact ⟨pre, [], by simp [hpre, hb], hc, by simp, hs, by simp⟩
  · exact ⟨pre, [Ev.backoffSleep], by simp [hpre, hb], hc, by simp, hs, by simp⟩

/-- Witness for C2: a concrete iteration (slot 0, configure step failing,
context not cancelled) with a successful token fetch. -/
theorem cleanup_once_before_slot_release_witness :
    ∃ pre mid,
      workerEvents (regConfig "" "img:tag") 0
        ⟨some "tok", true, true, some "192.168.64.10", true, false, false, true, false⟩ =
      pre ++ Ev.cleanupCall (instanceName (regConfig "" "img:tag") 0) ::
        (mid ++ [Ev.slotReturn 0]) ∧
      Ev.cleanupCall (instanceName (regConfig "" "img:tag") 0) ∉ pre ∧
      Ev.cleanupCall (instanceName (regConfig "" "img:tag") 0) ∉ mid ∧
      Ev.slotReturn 0 ∉ pre ∧
      Ev.slotReturn 0 ∉ mid :=
  cleanup_once_before_slot_release (regConfig "" "img:tag") 0
    ⟨some "tok", true, true, some "192.168.64.10", true, false, false, true, false⟩
    "tok" rfl

/-! ## Claim C8 -/

/-- C8: the IP validity check used by the address wait accepts
`"192.168.64.10"` and rejects `""`, `"not-an-ip"` and `"1.2.3"`. -/
theorem ipRegex_examples :
    ipRegexMatches "192.168.64.10" = true ∧
    ipRegexMatches "" = false ∧
    ipRegexMatches "not-an-ip" = false ∧
    ipRegexMatches "1.2.3" = false := by
  decide

/-! ## VMManager.waitForIP (internal/setup/setup.go, `waitForIP`)

The Go loop selects among the caller context's cancellation, a 5-minute
timeout channel, and a 1-second ticker; on each tick it runs `tart ip`,
ignores command errors, trims the output, and returns the trimmed string as
soon as `ipRegex` matches it — after first running `ssh-keygen -R ip` to
drop stale host-key material. We embed time as the tick counter `t` (the
`t`-th second), the environment as `poll : Nat → Option String` (the output
of `tart ip` at second `t`, `none` when the command errors) and
`cancelAt : Option Nat` (the second from which the caller's context is
cancelled, if ever). Cancellation is checked first on every iteration, the
5-minute timeout admits 300 ticks. -/

/-- Embeds Go `strings.TrimSpace` on the character list: drop whitespace
from both ends. -/
def trimChars (l : List Char) : List Char :=
  ((l.dropWhile Char.isWhitespace).reverse.dropWhile Char.isWhitespace).reverse

/-- Embeds `strings.TrimSpace(string(output))`. -/
def strTrim (s : String) : String :=
  String.mk (trimChars s.data)

/-- The two error outcomes of `waitForIP`: the `"timeout waiting for VM IP"`
error and the propagated `ctx.Err()`. -/
inductive WaitErr where
  | timeout
  | ctxCancelled
deriving Repr, DecidableEq

/-- Host-side side effect of the address wait: `ssh-keygen -R ip` (stale
host-key invalidation). -/
inductive HostEv where
  | sshKeygenRemove (ip : String)
deriving Repr, DecidableEq

/-- Whether the caller's context observes cancellation at second `t`. -/
def ctxDoneAt (cancelAt : Option Nat) (t : Nat) : Bool :=
  match cancelAt with
  | none => false
  | some c => Nat.ble c t

/-- One tick of the poll loop body: run `tart ip`; on command error continue
(`none`); otherwise trim the output and keep it only if `ipRegex` matches. -/
def pollResult (poll : Nat → Option String) (t : Nat) : Option String :=
  match poll t with
  | none => none
  | some out =>
    let ip := strTrim out
    if ipRegexMatches ip then some ip else none

/-- The select loop of `waitForIP`, with `fuel` ticks remaining before the
5-minute timeout fires, at current second `t`: cancellation is checked
first; when the fuel is exhausted the timeout error is returned; otherwise
the tick polls and either returns the matching address (after the host-key
invalidation) or recurses into the next second. -/
def waitLoop (cancelAt : Option Nat) (poll : Nat → Option String) :
    Nat → Nat → Except WaitErr String × List HostEv
  | 0, t =>
    if ctxDoneAt cancelAt t then (.error .ctxCancelled, [])
    else (.error .timeout, [])
  | fuel + 1, t =>
    if ctxDoneAt cancelAt t then (.error .ctxCancelled, [])
    else
      match pollResult poll t with
      | some ip => (.ok ip, [HostEv.sshKeygenRemove ip])
      | none => waitLoop cancelAt poll fuel (t + 1)

/-- Embeds `(*VMManager).waitForIP` (and the exported `WaitForIP` wrapper):
ticks at seconds 1, 2, …; the 5-minute timeout admits 300 one-second ticks. -/
def waitForIP (cancelAt : Option Nat) (poll : Nat → Option String) :
    Except WaitErr String × List HostEv :=
  waitLoop cancelAt poll 300 1

/-- A successful poll tick yields a string accepted by the IP shape check. -/
theorem pollResult_some (poll : Nat → Option String) (t : Nat) (ip : String)
    (h : pollResult poll t = some ip) : ipRegexMatches ip = true := by
  unfold pollResult at h
  cases hp : poll t with
  | none => rw [hp] at h; exact absurd h (by simp)
  | some out =>
    rw [hp] at h
    simp only at h
    split at h
    · cases h; assumption
    · exact absurd h (by simp)

/-- If the wait loop returns an address, that address passed the IP shape
check and the stale host key for it was invalidated (and nothing else was). -/
theorem waitLoop_ok (cancelAt : Option Nat) (poll : Nat → Option String)
    (fuel : Nat) :
    ∀ t ip evs, waitLoop cancelAt poll fuel t = (.ok ip, evs) →
      ipRegexMatches ip = true ∧ evs = [HostEv.sshKeygenRemove ip] := by
  induction fuel with
  | zero =>
    intro t ip evs h
    unfold waitLoop at h
    split at h <;> exact absurd h (by simp)
  | succ n ih =>
    intro t ip evs h
    unfold waitLoop at h
    split at h
    · exact absurd h (by simp)
    · cases hp : pollResult poll t with
      | none => rw [hp] at h; exact ih (t + 1) ip evs h
      | some ip0 =>
        rw [hp] at h
        simp only [Prod.mk.injEq, Except.ok.injEq] at h
        obtain ⟨h1, h2⟩ := h
        subst h1
        exact ⟨pollResult_some _ _ _ hp, h2.symm⟩

/-- If no tick in the window yields a valid address and the context is never
cancelled, the wait loop ends in the timeout error. -/
theorem waitLoop_timeout (poll : Nat → Option String) (fuel : Nat) :
    ∀ t, (∀ u, t ≤ u → u < t + fuel → pollResult poll u = none) →
      waitLoop none poll fuel t = (.error .timeout, []) := by
  induction fuel with
  | zero => intro t _; simp [waitLoop, ctxDoneAt]
  | succ n ih =>
    intro t h
    unfold waitLoop
    simp only [ctxDoneAt, Bool.false_eq_true, if_false]
    rw [h t le_rfl (by omega)]
    exact ih (t + 1) (fun u hu1 hu2 => h u (by omega) (by omega))

/-- If the context is cancelled from second `c` on, `c` falls within the
wait's lifetime, and no tick before `c` yields a valid address, the wait loop
propagates the cancellation error. -/
theorem waitLoop_cancel (poll : Nat → Option String) (c : Nat) (fuel : Nat) :
    ∀ t, (∀ u, t ≤ u → u < c → pollResult poll u = none) → c ≤ t + fuel →
      waitLoop (some c) poll fuel t = (.error .ctxCancelled, []) := by
  induction fuel with
  | zero =>
    intro t _ hc
    have hct : Nat.ble c t = true := Nat.ble_eq.mpr (by omega)
    simp [waitLoop, ctxDoneAt, hct]
  | succ n ih =>
    intro t hpoll hc
    by_cases hct : c ≤ t
    · have hb : Nat.ble c t = true := Nat.ble_eq.mpr hct
      simp [waitLoop, ctxDoneAt, hb]
    · have hb : Nat.ble c t = false := by
        rw [Bool.eq_false_iff]
        intro hx
        exact hct (Nat.ble_eq.mp hx)
      have h1 : pollResult poll t = none := hpoll t le_rfl (by omega)
      unfold waitLoop
      simp only [ctxDoneAt, hb, Bool.false_eq_true, if_false]
      rw [h1]
      exact ih (t + 1) (fun u hu1 hu2 => hpoll u (by omega) hu2) (by omega)

/-! ## Claim C5 -/

/-- C5: `waitForIP` polls once per second and ends in exactly one of three
ways. If it returns a string, that string passed the IPv4 shape check and
the stale SSH host-key material for that address was invalidated before
returning. If all 300 ticks of the 5-minute window pass without a valid
address and the context is never cancelled, it returns the timeout error.
If the context is cancelled during the wait before any valid address was
observed, it returns the propagated cancellation error. Both error outcomes
terminate the wait. -/
theorem waitForIP_outcomes (cancelAt : Option Nat) (poll : Nat → Option String) :
    (∀ ip evs, waitForIP cancelAt poll = (.ok ip, evs) →
      ipRegexMatches ip = true ∧ evs = [HostEv.sshKeygenRemove ip]) ∧
    (cancelAt = none → (∀ t, 1 ≤ t → t ≤ 300 → pollResult poll t = none) →
      waitForIP cancelAt poll = (.error .timeout, [])) ∧
    (∀ c, cancelAt = some c → c ≤ 301 →
      (∀ t, 1 ≤ t → t < c → pollResult poll t = none) →
      waitForIP cancelAt poll = (.error .ctxCancelled, [])) := by
  refine ⟨?_, ?_, ?_⟩
  · intro ip evs h
    exact waitLoop_ok cancelAt poll 300 1 ip evs h
  · intro hc h
    subst hc
    exact waitLoop_timeout poll 300 1 (fun u hu1 hu2 => h u hu1 (by omega))
  · intro c hc hle h
    subst hc
    exact waitLoop_cancel poll c 300 1 (fun u hu1 hu2 => h u hu1 hu2) (by omega)

/-- Witness for C5: the three outcomes at concrete poll streams — a VM that
reports `192.168.64.10` at once, a VM that never reports an address, and a
context cancelled from the first second. -/
theorem waitForIP_outcomes_witness :
    (ipRegexMatches "192.168.64.10" = true ∧
      [HostEv.sshKeygenRemove "192.168.64.10"] = [HostEv.sshKeygenRemove "192.168.64.10"]) ∧
    waitForIP none (fun _ => none) = (.error .timeout, []) ∧
    waitForIP (some 1) (fun _ => none) = (.error .ctxCancelled, []) :=
  ⟨(waitForIP_outcomes none (fun _ => some "192.168.64.10")).1
      "192.168.64.10" [HostEv.sshKeygenRemove "192.168.64.10"] rfl,
   (waitForIP_outcomes none (fun _ => none)).2.1 rfl (fun _ _ _ => rfl),
   (waitForIP_outcomes (some 1) (fun _ => none)).2.2 1 rfl (by omega)
     (fun t h1 h2 => absurd (Nat.lt_of_lt_of_le h2 h1) (by omega))⟩

/-! ## Claim C9: the IP shape check against genuine IPv4 syntax -/

/-- Numeric value of a digit run, as Go would parse it (decimal). -/
def digitsToNat (p : List Char) : Nat :=
  p.foldl (fun n c => n * 10 + (c.toNat - 48)) 0

/-- Formalises, from the claim's words, a syntactically valid IPv4 address:
four dot-separated nonempty decimal digit runs, each denoting a value of at
most 255. This definition intentionally follows the specification's notion,
not the source, so that the source's `ipRegexMatches` can be compared with
it. -/
def isValidIPv4 (s : String) : Bool :=
  let parts := splitDot s.data
  parts.length == 4 && parts.all (fun p => isDigitRun p && Nat.ble (digitsToNat p) 255)

/-- A decimal digit is not the dot separator. -/
theorem digit_ne_dot {c : Char} (h : c.isDigit = true) : c ≠ '.' := by
  intro he
  rw [he] at h
  exact absurd h (by decide)

/-- Splitting a dot-free chunk yields just that chunk. -/
theorem splitDot_no_dot (a : List Char) (h : ∀ c ∈ a, c ≠ '.') :
    splitDot a = [a] := by
  induction a with
  | nil => rfl
  | cons c cs ih =>
    have hc : c ≠ '.' := h c (by simp)
    simp only [splitDot, if_neg hc]
    rw [ih (fun x hx => h x (by simp [hx]))]

/-- Splitting peels off a leading dot-free chunk at its separating dot. -/
theorem splitDot_append (a rest : List Char) (h : ∀ c ∈ a, c ≠ '.') :
    splitDot (a ++ '.' :: rest) = a :: splitDot rest := by
  induction a with
  | nil => simp [splitDot]
  | cons c cs ih =>
    have hc : c ≠ '.' := h c (by simp)
    simp only [List.cons_append, splitDot, if_neg hc, List.append_eq]
    rw [ih (fun x hx => h x (by simp [hx]))]

/-- Every character of a digit run is a digit, hence not a dot. -/
theorem digitRun_no_dot (p : List Char) (h : isDigitRun p = true) :
    ∀ c ∈ p, c ≠ '.' := by
  intro c hc
  simp only [isDigitRun, Bool.and_eq_true, List.all_eq_true] at h
  exact digit_ne_dot (h.2 c hc)

/-- C9: the IP shape check is broader than IPv4 syntax. It accepts any four
dot-separated nonempty decimal digit runs regardless of numeric range or
length — in particular `"999.999.999.999"` and `"1.2.3.45678"`, neither of
which is a valid dotted-quad address — and consequently `waitForIP` can
return a string that is not a valid IPv4 address. -/
theorem ipRegex_broader_than_ipv4 :
    (∀ a b c d : List Char,
      isDigitRun a = true → isDigitRun b = true →
      isDigitRun c = true → isDigitRun d = true →
      ipRegexMatches (String.mk (a ++ '.' :: (b ++ '.' :: (c ++ '.' :: d)))) = true) ∧
    ipRegexMatches "999.999.999.999" = true ∧
    ipRegexMatches "1.2.3.45678" = true ∧
    isValidIPv4 "999.999.999.999" = false ∧
    isValidIPv4 "1.2.3.45678" = false ∧
    (∃ poll, waitForIP none poll =
        (.ok "999.999.999.999", [HostEv.sshKeygenRemove "999.999.999.999"]) ∧
      isValidIPv4 "999.999.999.999" = false) := by
  refine ⟨?_, by decide, by decide, by decide, by decide,
    ⟨fun _ => some "999.999.999.999", rfl, by decide⟩⟩
  intro a b c d ha hb hc hd
  have hsplit :
      splitDot (a ++ '.' :: (b ++ '.' :: (c ++ '.' :: d))) = [a, b, c, d] := by
    rw [splitDot_append a _ (digitRun_no_dot a ha),
      splitDot_append b _ (digitRun_no_dot b hb),
      splitDot_append c _ (digitRun_no_dot c hc),
      splitDot_no_dot d (digitRun_no_dot d hd)]
  simp [ipRegexMatches, hsplit, ha, hb, hc, hd]

/-- Witness for C9: the universally quantified acceptance statement applied
to the concrete digit runs of `999.999.999.999`. -/
theorem ipRegex_broader_than_ipv4_witness :
    ipRegexMatches (String.mk
      (['9', '9', '9'] ++ '.' :: (['9', '9', '9'] ++ '.' ::
        (['9', '9', '9'] ++ '.' :: ['9', '9', '9'])))) = true :=
  ipRegex_broader_than_ipv4.1 ['9', '9', '9'] ['9', '9', '9'] ['9', '9', '9']
    ['9', '9', '9'] (by decide) (by decide) (by decide) (by decide)

/-! ## VMManager.Stop, Delete and Cleanup (internal/setup/setup.go) -/

/-- The context data the embedded operations inspect: the caller's context
with its cancelled flag, or a fresh `context.WithTimeout(context.Background(),
…)` context with its timeout in seconds. -/
inductive Ctx where
  | caller (cancelled : Bool)
  | background (timeoutSeconds : Nat)
deriving Repr, DecidableEq

/-- The tart process invocations of `Stop` and `Delete`, with the context
they run under. -/
inductive TartEv where
  | stopCmd (c : Ctx) (name : String)
  | deleteCmd (c : Ctx) (name : String)
deriving Repr, DecidableEq

/-- Embeds `(*VMManager).Stop`: runs `tart stop name` once under the given
context and propagates the invocation's error, if any. -/
def tartStop (c : Ctx) (name : String) (fails : Bool) :
    Except String Unit × List TartEv :=
  ((if fails then Except.error "tart stop failed" else Except.ok ()),
    [TartEv.stopCmd c name])

/-- Embeds `(*VMManager).Delete`: runs `tart delete name` once under the given
context and propagates the invocation's error, if any. -/
def tartDelete (c : Ctx) (name : String) (fails : Bool) :
    Except String Unit × List TartEv :=
  ((if fails then Except.error "tart delete failed" else Except.ok ()),
    [TartEv.deleteCmd c name])

/-- Embeds `(*VMManager).Cleanup`: builds a fresh 30-second
background-with-timeout context (independent of the caller's context), runs
`Stop` then `Delete` under it, and discards both results — the Go function
has no return value, so no error can propagate to its caller; `fails` flags
of the two invocations model the underlying tool failing. -/
def cleanupVM (callerCtx : Ctx) (name : String) (stopFails deleteFails : Bool) :
    List TartEv :=
  let fresh := Ctx.background 30
  (tartStop fresh name stopFails).2 ++ (tartDelete fresh name deleteFails).2

/-! ## Claim C4 -/

/-- C4: for every instance name and every caller context — including an
already-cancelled one — `Cleanup` makes exactly one `Stop` attempt followed
by exactly one `Delete` attempt, both under the fresh 30-second background
context rather than the caller's, and its trace (and the absence of any
returned error: its type returns none) is the same whether or not either
attempt fails. -/
theorem cleanup_best_effort (callerCtx : Ctx) (name : String)
    (stopFails deleteFails : Bool) :
    cleanupVM callerCtx name stopFails deleteFails =
      [TartEv.stopCmd (Ctx.background 30) name,
       TartEv.deleteCmd (Ctx.background 30) name] :=
  rfl

/-! ## GitHubClient.GetRegistrationToken (internal/runner/github.go) -/

/-- What the single HTTP exchange can come back with: `failure` covers a
transport error of the request or of reading the response body; otherwise a
response with its status code and the result of JSON-parsing its body
(`none` when unmarshalling fails, `some t` when a token field `t` was
parsed, possibly empty). -/
inductive HTTPOutcome where
  | failure
  | response (status : Nat) (parsedToken : Option String)
deriving Repr, DecidableEq

/-- The HTTP requests the client issues. -/
inductive HTTPEv where
  | post (endpoint : String)
deriving Repr, DecidableEq

/-- Embeds `(*GitHubClient).GetRegistrationToken`: one POST to the
registration endpoint; error on transport failure, on any status other than
201 (`http.StatusCreated`), on an unparseable body, and on an empty parsed
token; otherwise the token. No looping or retrying occurs. -/
def getRegistrationToken (cfg : Config) (outcome : HTTPOutcome) :
    Except String String × List HTTPEv :=
  let evs := [HTTPEv.post cfg.github.registrationEndpoint]
  match outcome with
  | .failure => (.error "request failed", evs)
  | .response status parsedToken =>
    if status ≠ 201 then (.error "GitHub API error", evs)
    else
      match parsedToken with
      | none => (.error "failed to parse response", evs)
      | some tok =>
        if tok = "" then (.error "empty token in response", evs)
        else (.ok tok, evs)

/-! ## Claim C6 -/

/-- C6: `GetRegistrationToken` issues exactly one POST (no internal retry),
and returns an error exactly when the request fails, the status is not 201,
the body does not parse, or the parsed token is empty; any returned token is
the non-empty token of a 201 response. -/
theorem getRegistrationToken_contract (cfg : Config) (outcome : HTTPOutcome) :
    (getRegistrationToken cfg outcome).2 = [HTTPEv.post cfg.github.registrationEndpoint] ∧
    ((∃ e, (getRegistrationToken cfg outcome).1 = .error e) ↔
      (outcome = .failure ∨ ∃ status parsedToken,
        outcome = .response status parsedToken ∧
        (status ≠ 201 ∨ parsedToken = none ∨ parsedToken = some ""))) ∧
    (∀ tok, (getRegistrationToken cfg outcome).1 = .ok tok →
      outcome = .response 201 (some tok) ∧ tok ≠ "") := by
  rcases outcome with _ | ⟨status, parsedToken⟩
  · simp [getRegistrationToken]
  · by_cases hst : status = 201
    · subst hst
      rcases parsedToken with _ | tok0
      · simp only [getRegistrationToken]
        simp
        exact ⟨201, none, ⟨rfl, rfl⟩, Or.inr (Or.inl rfl)⟩
      · by_cases htok : tok0 = ""
        · subst htok
          simp only [getRegistrationToken]
          simp
          exact ⟨201, some "", ⟨rfl, rfl⟩, Or.inr (Or.inr rfl)⟩
        · simp [getRegistrationToken, htok]
    · simp only [getRegistrationToken]
      simp [hst]
      exact ⟨status, parsedToken, ⟨rfl, rfl⟩, Or.inl hst⟩

/-- Witness for C6: the token-returning conclusion at a concrete 201
response carrying token `"abc"`. -/
theorem getRegistrationToken_contract_witness :
    HTTPOutcome.response 201 (some "abc") = HTTPOutcome.response 201 (some "abc") ∧
    "abc" ≠ "" :=
  (getRegistrationToken_contract (regConfig "" "img:tag")
    (HTTPOutcome.response 201 (some "abc"))).2.2 "abc" rfl

/-! ## SSH client and runner configuration (internal/runner/ssh.go) -/

/-- The remote commands the SSH client can run inside the VM, structured:
`configSh` is the runner's `./actions-runner/config.sh` invocation with its
`--url`, `--token`, `--name`, `--labels` arguments and its `--ephemeral`,
`--unattended`, `--replace` switches; `runSh` starts the runner; `readyProbe`
is the trivial `pwd` readiness probe. -/
inductive RemoteCmd where
  | configSh (url token name labels : String)
      (ephemeral unattended replace : Bool)
  | runSh
  | readyProbe
deriving Repr, DecidableEq

/-- A remote command execution against one IP address. -/
inductive SSHEv where
  | exec (ip : String) (cmd : RemoteCmd)
deriving Repr, DecidableEq

/-- Embeds the label-string loop of `ConfigureRunner`: the labels joined
with commas. -/
def joinComma : List String → String
  | [] => ""
  | [l] => l
  | l :: ls => l ++ "," ++ joinComma ls

/-- Embeds the label defaulting of `ConfigureRunner`: an empty configured
list becomes `["self-hosted"]`. -/
def effectiveLabels (cfg : Config) : List String :=
  if cfg.github.runnerLabels.isEmpty then ["self-hosted"]
  else cfg.github.runnerLabels

/-- Modelled from the spec: the four-argument
`ConfigureRunner(ctx, ip, token, instanceName)` that `runOnce` calls
(loop.go line 207, and part_004 line 149) is absent from src/ — only its
callers appear there; the three-argument variant in internal/runner/ssh.go
is an earlier revision that ignores the instance name. Per spec §4.4 and
§6, the operation issues one remote command that runs the runner's config
script against the configured coordinator URL with the given registration
token, registers under the given per-iteration instance name, and marks the
registration ephemeral, unattended and replace-on-conflict, with the
configured labels (defaulting to self-hosted). -/
def configureRunner (cfg : Config) (ip token instName : String) : List SSHEv :=
  [SSHEv.exec ip (RemoteCmd.configSh cfg.github.runnerURL token instName
    (joinComma (effectiveLabels cfg)) true true true)]

/-! ## Claim C7 -/

/-- C7: for every ip, token and per-iteration instance name, the configure
operation issues exactly one remote command; that command registers the
runner with the CI coordinator's configured URL using the given token, is
marked ephemeral and replace-on-conflict (and unattended), and registers
under the given instance name. -/
theorem configureRunner_registers (cfg : Config) (ip token instName : String) :
    (configureRunner cfg ip token instName).length = 1 ∧
    configureRunner cfg ip token instName =
      [SSHEv.exec ip (RemoteCmd.configSh cfg.github.runnerURL token instName
        (joinComma (effectiveLabels cfg)) true true true)] :=
  ⟨rfl, rfl⟩

/-! ## VMManager.PullImage (internal/setup/setup.go, `PullImage`,
`GetCachePath`, `resizeCachedImage`) -/

/-- File-system and process effects of `PullImage`. -/
inductive FsEv where
  | removeAll (path : String)
  | tartPullCmd (ref : String) (concurrency : Nat)
  | resizeDisk (diskPath : String)
deriving Repr, DecidableEq

/-- Embeds Go `filepath.Join` on already-clean components: the parts joined
with the path separator. -/
def joinPath : List String → String
  | [] => ""
  | [p] => p
  | p :: ps => p ++ "/" ++ joinPath ps

/-- Embeds `(*VMManager).GetCachePath`:
`filepath.Join(os.Getenv("HOME"), ".tart", "cache", "OCIs", cachePath)` with
`cachePath` the registry path with every `":"` replaced by `"/"`. The
`HOME` environment variable is the `home` parameter. -/
def getCachePath (home : String) (cfg : Config) : String :=
  joinPath [home, ".tart", "cache", "OCIs", (getRegistryPath cfg).replace ":" "/"]

/-- The on-disk directory of a VM instance under the tart state directory,
as the source addresses it (setup.go line 413:
`filepath.Join(os.Getenv("HOME"), ".tart", "vms", instance, "disk.img")`). -/
def vmDiskPath (home inst : String) : String :=
  joinPath [home, ".tart", "vms", inst, "disk.img"]

/-- Embeds `(*VMManager).Cleanup`-independent `PullImage`: it first calls
`os.RemoveAll` on the whole `$HOME/.tart` directory — logging but otherwise
ignoring a failure (`rmFails`) — then runs
`tart pull registryPath --concurrency 1`; when a truncate size is
configured, it then runs the resize procedure over the cached image's
`disk.img` (abstracted here to one `resizeDisk` effect, which may fail). -/
def pullImage (home : String) (cfg : Config)
    (rmFails pullFails resizeFails : Bool) : Except String Unit × List FsEv :=
  let tartDir := home ++ "/.tart"
  let rmAttempt : Except String Unit × List FsEv :=
    ((if rmFails then Except.error "remove failed" else Except.ok ()),
      [FsEv.removeAll tartDir])
  let evs := rmAttempt.2 ++ [FsEv.tartPullCmd (getRegistryPath cfg) 1]
  if pullFails then (.error "tart pull failed", evs)
  else if cfg.options.truncateSize = "" then (.ok (), evs)
  else
    let resizeEvs := evs ++ [FsEv.resizeDisk (joinPath [getCachePath home cfg, "disk.img"])]
    if resizeFails then (.error "disk resize failed", resizeEvs)
    else (.ok (), resizeEvs)

/-- The image cache lives inside the directory `PullImage` removes. -/
theorem getCachePath_under_tartDir (home : String) (cfg : Config) :
    getCachePath home cfg =
      (home ++ "/.tart") ++ ("/cache/OCIs/" ++ (getRegistryPath cfg).replace ":" "/") := by
  apply String.ext
  simp only [getCachePath, joinPath, String.data_append]
  have e1 : ("/" : String).data = ['/'] := rfl
  have e2 : (".tart" : String).data = ['.', 't', 'a', 'r', 't'] := rfl
  have e3 : ("cache" : String).data = ['c', 'a', 'c', 'h', 'e'] := rfl
  have e4 : ("OCIs" : String).data = ['O', 'C', 'I', 's'] := rfl
  have e5 : ("/.tart" : String).data = ['/', '.', 't', 'a', 'r', 't'] := rfl
  have e6 : ("/cache/OCIs/" : String).data =
    ['/', 'c', 'a', 'c', 'h', 'e', '/', 'O', 'C', 'I', 's', '/'] := rfl
  simp [e1, e2, e3, e4, e5, e6]

/-- Every VM instance's on-disk state lives inside the directory `PullImage`
removes. -/
theorem vmDiskPath_under_tartDir (home inst : String) :
    vmDiskPath home inst =
      (home ++ "/.tart") ++ ("/vms/" ++ (inst ++ "/disk.img")) := by
  apply String.ext
  simp only [vmDiskPath, joinPath, String.data_append]
  have e1 : ("/" : String).data = ['/'] := rfl
  have e2 : (".tart" : String).data = ['.', 't', 'a', 'r', 't'] := rfl
  have e3 : ("vms" : String).data = ['v', 'm', 's'] := rfl
  have e4 : ("disk.img" : String).data = ['d', 'i', 's', 'k', '.', 'i', 'm', 'g'] := rfl
  have e5 : ("/.tart" : String).data = ['/', '.', 't', 'a', 'r', 't'] := rfl
  have e6 : ("/vms/" : String).data = ['/', 'v', 'm', 's', '/'] := rfl
  have e7 : ("/disk.img" : String).data = ['/', 'd', 'i', 's', 'k', '.', 'i', 'm', 'g'] := rfl
  simp [e1, e2, e3, e4, e5, e6, e7]

/-! ## Claim C10 -/

/-- C10: whatever the outcomes of its own sub-steps, `PullImage` begins by
removing the entire local tart state directory `$HOME/.tart` — under which
both the whole image cache and every VM instance's on-disk state live, not
only the image being refreshed — and then proceeds to the registry pull
even when that removal fails. -/
theorem pullImage_wipes_tart_state (home : String) (cfg : Config)
    (rmFails pullFails resizeFails : Bool) :
    (∃ rest, (pullImage home cfg rmFails pullFails resizeFails).2 =
      FsEv.removeAll (home ++ "/.tart") ::
        FsEv.tartPullCmd (getRegistryPath cfg) 1 :: rest) ∧
    (∃ tail, getCachePath home cfg = (home ++ "/.tart") ++ tail) ∧
    (∀ inst, ∃ tail, vmDiskPath home inst = (home ++ "/.tart") ++ tail) := by
  refine ⟨?_, ⟨_, getCachePath_under_tartDir home cfg⟩,
    fun inst => ⟨_, vmDiskPath_under_tartDir home inst⟩⟩
  simp only [pullImage]
  cases pullFails
  · by_cases ht : cfg.options.truncateSize = ""
    · exact ⟨[], by simp [ht]⟩
    · cases resizeFails
      · exact ⟨[FsEv.resizeDisk (joinPath [getCachePath home cfg, "disk.img"])],
          by simp [ht]⟩
      · exact ⟨[FsEv.resizeDisk (joinPath [getCachePath home cfg, "disk.img"])],
          by simp [ht]⟩
  · exact ⟨[], by simp⟩

end Rvmm
